import Mathlib

/-!
Verification of the QueueCTL job-queue core: a shallow embedding of
`src/queuectl/job.py`, `src/queuectl/queue_manager.py`,
`src/queuectl/worker.py` and the enqueue boundary of
`src/queuectl/cli.py`, together with theorems settling the stated
properties of the system.

Modelling conventions:
- Timestamps are integer seconds.  The code stores ISO-8601 UTC strings
  produced by `datetime.utcnow().isoformat()` and compares them as TEXT
  in SQLite; lexicographic comparison of such strings agrees with
  chronological order, so an order-isomorphic integer encoding is
  faithful for every comparison and for the `+ timedelta(seconds=d)`
  arithmetic in `mark_for_retry`.
- Python `float` durations (`execution_time`) are modelled as rationals.
- The SQLite jobs table is modelled as a list of records in insertion
  (rowid) order; `UPDATE ... WHERE id=?` is a positional map, and
  `SELECT ... LIMIT 1` scans in that order.
- Nondeterministic inputs of the real system (`uuid.uuid4()`, the
  current clock, subprocess results, measured wall-clock durations) are
  explicit parameters.
-/

namespace QueueCTL

/-- Job lifecycle states, mirroring `Job.STATES` in `src/queuectl/job.py`. -/
inductive JState
  | pending
  | processing
  | completed
  | failed
  | dead
  deriving DecidableEq, Repr

/-- A job record, mirroring the attributes set in `Job.__init__`
(`src/queuectl/job.py`).  `id`, `created_at` and `updated_at` are always
populated by the constructor, hence non-optional here; the remaining
nullable columns are `Option`s. -/
structure Job where
  id : String
  command : Option String
  state : JState
  attempts : Nat
  max_retries : Nat
  created_at : Int
  updated_at : Int
  next_retry_at : Option Int
  error_message : Option String
  output : Option String
  priority : Int
  timeout : Int
  run_at : Option Int
  started_at : Option Int
  completed_at : Option Int
  execution_time : Option ℚ
  deriving DecidableEq, Repr

/-- A dictionary as consumed by `Job.from_dict` and produced by
`Job.to_dict`: every one of the sixteen keys may be absent or null,
which `dict.get` collapses to `None` for the keys fetched with a `None`
default; for the keys fetched with a non-null default (`state`,
`attempts`, `max_retries`, `priority`, `timeout`) an absent key yields
the default, and we model the dictionary value domain as the values
actually produced by `to_dict` and the enqueue boundary. -/
structure JobDict where
  id : Option String
  command : Option String
  state : Option JState
  attempts : Option Nat
  max_retries : Option Nat
  created_at : Option Int
  updated_at : Option Int
  next_retry_at : Option Int
  error_message : Option String
  output : Option String
  priority : Option Int
  timeout : Option Int
  run_at : Option Int
  started_at : Option Int
  completed_at : Option Int
  execution_time : Option ℚ
  deriving DecidableEq, Repr

/-- `Job.from_dict` composed with `Job.__init__`: `fresh` models
`str(uuid.uuid4())` and `now` models `datetime.utcnow().isoformat()`.
The constructor evaluates `id or str(uuid.uuid4())`, so a missing id
and the Python-falsy empty string are both replaced by a fresh uuid;
`created_at or now` and `updated_at or now` replace only a missing
value (the integer time encoding has no counterpart of the falsy empty
string, which `isoformat()` never produces). -/
def Job.from_dict (d : JobDict) (fresh : String) (now : Int) : Job :=
  { id := match d.id with
      | some s => if s = "" then fresh else s
      | none => fresh
    command := d.command
    state := d.state.getD JState.pending
    attempts := d.attempts.getD 0
    max_retries := d.max_retries.getD 3
    created_at := d.created_at.getD now
    updated_at := d.updated_at.getD now
    next_retry_at := d.next_retry_at
    error_message := d.error_message
    output := d.output
    priority := d.priority.getD 0
    timeout := d.timeout.getD 300
    run_at := d.run_at
    started_at := d.started_at
    completed_at := d.completed_at
    execution_time := d.execution_time }

/-- `Job.to_dict` (`src/queuectl/job.py`): every one of the sixteen
fields is emitted under its own key. -/
def Job.to_dict (j : Job) : JobDict :=
  { id := some j.id
    command := j.command
    state := some j.state
    attempts := some j.attempts
    max_retries := some j.max_retries
    created_at := some j.created_at
    updated_at := some j.updated_at
    next_retry_at := j.next_retry_at
    error_message := j.error_message
    output := j.output
    priority := some j.priority
    timeout := some j.timeout
    run_at := j.run_at
    started_at := j.started_at
    completed_at := j.completed_at
    execution_time := j.execution_time }

/-- `Job.calculate_retry_delay`: `base ** self.attempts`. -/
def Job.calculate_retry_delay (j : Job) (base : Nat) : Nat :=
  base ^ j.attempts

/-- `Job.should_retry`: `self.attempts < self.max_retries`. -/
def Job.should_retry (j : Job) : Bool :=
  j.attempts < j.max_retries

/-- `Job.mark_for_retry`: increment `attempts`, record the error, then
either schedule a retry (`failed`, `next_retry_at = now + base^attempts`
with the exponent read after the increment) or move to the DLQ
(`dead`, `next_retry_at = None`). -/
def Job.mark_for_retry (j : Job) (error_msg : String) (backoff_base : Nat) (now : Int) : Job :=
  let j1 : Job :=
    { j with attempts := j.attempts + 1
             error_message := some error_msg
             updated_at := now }
  if j1.should_retry then
    { j1 with state := JState.failed
              next_retry_at := some (now + (j1.calculate_retry_delay backoff_base : Int)) }
  else
    { j1 with state := JState.dead, next_retry_at := none }

/-- `Job.mark_processing`: `state ← processing`, `started_at ← now`,
`updated_at ← started_at`. -/
def Job.mark_processing (j : Job) (now : Int) : Job :=
  { j with state := JState.processing
           started_at := some now
           updated_at := now }

/-- `Job.mark_completed`: `state ← completed`, store the output summary,
set `completed_at` and `updated_at` to now, and if `started_at` is set
compute `execution_time = completed_at - started_at`. -/
def Job.mark_completed (j : Job) (output : Option String) (now : Int) : Job :=
  let j1 : Job :=
    { j with state := JState.completed
             output := output
             completed_at := some now
             updated_at := now }
  match j1.started_at with
  | some s => { j1 with execution_time := some ((now - s : Int) : ℚ) }
  | none => j1

/-- The dictionary `Worker.execute_command` returns
(`src/queuectl/worker.py`). -/
structure ExecResult where
  success : Bool
  output : String
  error : String
  return_code : Int
  deriving DecidableEq, Repr

/-- The three ways a subprocess attempt can end: a normal exit with an
exit code and captured streams, a `subprocess.TimeoutExpired`, or a
spawn exception. -/
inductive ExecOutcome
  | exited (code : Int) (stdout : String) (stderr : String)
  | timedOut (timeout : Int)
  | spawnError (msg : String)
  deriving DecidableEq, Repr

/-- `Worker.execute_command`: success iff the return code is 0; a
timeout or spawn error yields `success = False` with `return_code = -1`
and the corresponding error text. -/
def execute_command : ExecOutcome → ExecResult
  | ExecOutcome.exited code stdout stderr =>
      { success := decide (code = 0)
        output := stdout
        error := stderr
        return_code := code }
  | ExecOutcome.timedOut t =>
      { success := false
        output := ""
        error := "Command timed out after " ++ toString t ++ " seconds"
        return_code := -1 }
  | ExecOutcome.spawnError msg =>
      { success := false
        output := ""
        error := msg
        return_code := -1 }

/-- `Worker.process_job` after the subprocess has run: on success,
`mark_completed` with the first 500 characters of stdout and then the
measured wall-clock duration overwrites `job.execution_time`; on
failure, `mark_for_retry` with stderr or the exit-code fallback.
`measured` models `time.time() - start_time`. -/
def Worker.process_job (j : Job) (result : ExecResult) (measured : ℚ)
    (backoff_base : Nat) (now : Int) : Job :=
  if result.success then
    let j1 := j.mark_completed (some (result.output.take 500)) now
    { j1 with execution_time := some measured }
  else
    let error_msg :=
      if result.error = "" then "Exit code: " ++ toString result.return_code
      else result.error
    j.mark_for_retry error_msg backoff_base now

/-- The jobs table: records in insertion (rowid) order. -/
abbrev Store := List Job

/-- `QueueManager.update_job`: `UPDATE jobs SET ... WHERE id=?` writes
every column except `id` and `created_at` on each matching row; an id
matching no row changes nothing and raises nothing. -/
def update_job (s : Store) (j : Job) : Store :=
  s.map fun k =>
    if k.id = j.id then { j with id := k.id, created_at := k.created_at } else k

/-- `QueueManager.get_job`: `SELECT * FROM jobs WHERE id=?` fetching the
first matching row in scan order. -/
def get_job (s : Store) (job_id : String) : Option Job :=
  s.find? fun k => k.id = job_id

/-- `QueueManager.enqueue` / the `INSERT` statement: appends the record,
failing (with the primary-key `IntegrityError`) when the id already
exists. -/
def insert_job (s : Store) (j : Job) : Option Store :=
  if s.any (fun k => k.id = j.id) then none else some (s ++ [j])

/-- The `WHERE` clause of `QueueManager.get_next_job`: state `pending`
or `failed`, `next_retry_at` null or elapsed, `run_at` null or elapsed. -/
def eligible (now : Int) (j : Job) : Bool :=
  (decide (j.state = JState.pending) || decide (j.state = JState.failed))
  && (match j.next_retry_at with | none => true | some t => decide (t ≤ now))
  && (match j.run_at with | none => true | some t => decide (t ≤ now))

/-- Strict precedence under `ORDER BY priority DESC, created_at ASC`:
`a` sorts strictly before `b`. -/
def claimBefore (a b : Job) : Bool :=
  decide (b.priority < a.priority)
  || (decide (a.priority = b.priority) && decide (a.created_at < b.created_at))

/-- One step of the `LIMIT 1` scan: keep the current best row unless the
next row sorts strictly before it, so among rows tying on both sort keys
the earliest row in scan (insertion) order is retained. -/
def pickBest (acc : Option Job) (j : Job) : Option Job :=
  match acc with
  | none => some j
  | some b => if claimBefore j b then some j else some b

/-- `QueueManager.get_next_job`: evaluate the filtered, ordered select
with limit 1 at `now`; if a row is found, `mark_processing` it, persist
with `update_job`, and return it. -/
def get_next_job (s : Store) (now : Int) : Option Job × Store :=
  match (s.filter (eligible now)).foldl pickBest none with
  | none => (none, s)
  | some j =>
      let j2 := j.mark_processing now
      (some j2, update_job s j2)

/-- `QueueManager.retry_dlq_job`: look the job up; unless it exists and
is `dead`, return failure without touching the store; otherwise reset
`state`, `attempts`, `next_retry_at` and `error_message`, stamp
`updated_at`, persist, and return success. -/
def retry_dlq_job (s : Store) (job_id : String) (now : Int) : Bool × Store :=
  match get_job s job_id with
  | none => (false, s)
  | some job =>
      if job.state = JState.dead then
        let j1 : Job :=
          { job with state := JState.pending
                     attempts := 0
                     next_retry_at := none
                     error_message := none
                     updated_at := now }
        (true, update_job s j1)
      else (false, s)

/-- The sort key of `ORDER BY priority DESC, created_at DESC` as a total
preorder: `a` may appear no later than `b`. -/
def listLe (a b : Job) : Prop :=
  b.priority < a.priority ∨ (a.priority = b.priority ∧ b.created_at ≤ a.created_at)

instance : DecidableRel listLe := fun a b => by
  unfold listLe; exact inferInstance

instance : IsTotal Job listLe := ⟨by intro a b; unfold listLe; omega⟩

instance : IsTrans Job listLe := ⟨by intro a b c; unfold listLe; omega⟩

/-- The sort key of the priority-filtered branch of `list_jobs`, which
orders by `created_at DESC` alone. -/
def createdDesc (a b : Job) : Prop :=
  b.created_at ≤ a.created_at

instance : DecidableRel createdDesc := fun a b => by
  unfold createdDesc; exact inferInstance

instance : IsTotal Job createdDesc := ⟨by intro a b; unfold createdDesc; omega⟩

instance : IsTrans Job createdDesc := ⟨by intro a b c; unfold createdDesc; omega⟩

/-- `QueueManager.list_jobs`: four query branches depending on which
filters are present, each a filtered select with its literal `ORDER BY`
clause; the sort is modelled as a stable sort, a deterministic
refinement of SQLite's unspecified tie order. -/
def list_jobs (s : Store) (state : Option JState) (priority : Option Int) : List Job :=
  match state, priority with
  | some st, some p =>
      List.insertionSort listLe
        (s.filter fun j => decide (j.state = st) && decide (j.priority = p))
  | some st, none =>
      List.insertionSort listLe (s.filter fun j => decide (j.state = st))
  | none, some p =>
      List.insertionSort createdDesc (s.filter fun j => decide (j.priority = p))
  | none, none =>
      List.insertionSort listLe s

/-- The filter predicate the `list_jobs` claim quantifies over. -/
def matchesFilter (state : Option JState) (priority : Option Int) (j : Job) : Bool :=
  (match state with | none => true | some st => decide (j.state = st))
  && (match priority with | none => true | some p => decide (j.priority = p))

/-- The two metrics of `QueueManager.get_metrics` the properties below
are about (the `jobs_last_24h` and `priority_dist` entries are not
referenced by any property).  `AVG(execution_time) ... WHERE
execution_time IS NOT NULL` is the mean of the non-null values, `NULL`
when there are none; the Python `row['avg_time'] if row and
row['avg_time'] else 0` additionally maps a falsy (zero or null)
average to 0.  The success rate is `completed / total * 100` when the
table is non-empty and 0 otherwise. -/
structure Metrics where
  avg_execution_time : ℚ
  success_rate : ℚ
  deriving DecidableEq, Repr

/-- `QueueManager.get_metrics`, restricted to the two fields above. -/
def get_metrics (s : Store) : Metrics :=
  let times := s.filterMap Job.execution_time
  let avg_sql : Option ℚ :=
    if times.length = 0 then none else some (times.sum / times.length)
  let avg : ℚ :=
    match avg_sql with
    | none => 0
    | some v => if v = 0 then 0 else v
  let total := s.length
  let completed := (s.filter fun j => decide (j.state = JState.completed)).length
  { avg_execution_time := avg
    success_rate := if 0 < total then (completed : ℚ) / (total : ℚ) * 100 else 0 }

/-- A base record for concrete instances: the field values a freshly
enqueued job receives from the constructor defaults. -/
def sampleJob : Job :=
  { id := "job-1"
    command := some "echo hi"
    state := JState.pending
    attempts := 0
    max_retries := 3
    created_at := 0
    updated_at := 0
    next_retry_at := none
    error_message := none
    output := none
    priority := 0
    timeout := 300
    run_at := none
    started_at := none
    completed_at := none
    execution_time := none }

/-- Strict precedence under the three-key ordering stated in the
specification for the claim operation: priority descending, then
created_at ascending, then id ascending (`String` order is the
lexicographic order on the character list). -/
def specBefore (a b : Job) : Prop :=
  b.priority < a.priority ∨
    (a.priority = b.priority ∧
      (a.created_at < b.created_at ∨
        (a.created_at = b.created_at ∧ a.id < b.id)))

/-- The shapes an enqueue request can take at the CLI boundary
(`enqueue` in `src/queuectl/cli.py`): a JSON argument (whose parse may
fail), the `--command` option with its companion options, or neither. -/
inductive EnqueueInput
  | jsonArg (parsed : Option JobDict)
  | cmdOpt (command : String) (job_id : Option String) (max_retries : Option Nat)
      (priority : Int) (timeout : Int) (run_at : Option Int)
  | nothingGiven
  deriving DecidableEq, Repr

/-- The shared tail of the `enqueue` command once a dictionary is in
hand: reject when the `command` key is missing (an explicit JSON null
command likewise leads to rejection, via the `command TEXT NOT NULL`
constraint raising inside the caught `try`), fill `max_retries` from
config when absent, build the job, and insert it; a duplicate id makes
the insert raise, which the surrounding `except` turns into a rejection
with the store untouched. -/
def enqueue_dict (s : Store) (d : JobDict) (cfg_max_retries : Nat)
    (fresh : String) (now : Int) : Bool × Store :=
  match d.command with
  | none => (false, s)
  | some _ =>
      let d1 := if d.max_retries = none
                then { d with max_retries := some cfg_max_retries } else d
      match insert_job s (Job.from_dict d1 fresh now) with
      | some s2 => (true, s2)
      | none => (false, s)

/-- The enqueue boundary of `cli.py`: an unparseable JSON argument is
rejected; with no JSON argument, an absent or Python-falsy empty
`--command` option is rejected; otherwise the request dictionary is
assembled (the option path adds `priority` and `timeout` only when they
differ from their CLI defaults) and handed to `enqueue_dict`. -/
def cli_enqueue (s : Store) (inp : EnqueueInput) (cfg_max_retries : Nat)
    (fresh : String) (now : Int) : Bool × Store :=
  match inp with
  | EnqueueInput.nothingGiven => (false, s)
  | EnqueueInput.jsonArg none => (false, s)
  | EnqueueInput.jsonArg (some d) => enqueue_dict s d cfg_max_retries fresh now
  | EnqueueInput.cmdOpt c jid mr p t r =>
      if c = "" then (false, s)
      else
        enqueue_dict s
          { id := jid
            command := some c
            state := none
            attempts := none
            max_retries := mr
            created_at := none
            updated_at := none
            next_retry_at := none
            error_message := none
            output := none
            priority := if p = 0 then none else some p
            timeout := if t = 300 then none else some t
            run_at := r
            started_at := none
            completed_at := none
            execution_time := none }
          cfg_max_retries fresh now

/-- One transition of a single job record as the system drives it: a
claim (`get_next_job` applies `mark_processing` to a job whose state
passed the `pending`/`failed` filter) or a worker finishing one
execution attempt of the processing job it holds, with an arbitrary
subprocess outcome, measured duration, backoff base and clock. -/
inductive JStep : Job → Job → Prop
  | claim (j : Job) (now : Int)
      (h : j.state = JState.pending ∨ j.state = JState.failed) :
      JStep j (j.mark_processing now)
  | execute (j : Job) (oc : ExecOutcome) (measured : ℚ) (B : Nat) (now : Int)
      (h : j.state = JState.processing) :
      JStep j (Worker.process_job j (execute_command oc) measured B now)

/-- The inductive strengthening of the retry-bookkeeping invariant: any
live (claimable or processing) job still has attempts to spare, a dead
job has exhausted exactly its budget, and attempts never exceed the
budget. -/
def StrongInv (j : Job) : Prop :=
  ((j.state = JState.pending ∨ j.state = JState.processing ∨ j.state = JState.failed) →
     j.attempts < j.max_retries) ∧
  (j.state = JState.dead → j.attempts = j.max_retries ∧ j.next_retry_at = none) ∧
  j.attempts ≤ j.max_retries

/-- First-inserted of two jobs tying on both claim sort keys. -/
def tieJobB : Job := { sampleJob with id := "b" }

/-- Second-inserted tying job whose id is lexicographically least. -/
def tieJobA : Job := { sampleJob with id := "a" }

/-- A job enqueued with `max_retries = 0`. -/
def zeroRetryJob : Job := { sampleJob with id := "zr", max_retries := 0 }

/-- A job enqueued with `max_retries = 1`. -/
def oneRetryJob : Job := { sampleJob with id := "or1", max_retries := 1 }

/-- The record `oneRetryJob` becomes after being claimed at time 0 and
failing its only attempt (exit code 1) at time 1. -/
def oneRetryFinal : Job :=
  Worker.process_job (oneRetryJob.mark_processing 0)
    (execute_command (ExecOutcome.exited 1 "" "boom")) 1 2 1

/-- A stored dead-letter job. -/
def deadJob : Job :=
  { sampleJob with id := "dead-1", state := JState.dead, attempts := 3,
                   error_message := some "boom" }

/-- A parsed JSON enqueue request whose `command` is present but empty. -/
def emptyCmdDict : JobDict :=
  { id := some "j-empty"
    command := some ""
    state := none
    attempts := none
    max_retries := none
    created_at := none
    updated_at := none
    next_retry_at := none
    error_message := none
    output := none
    priority := none
    timeout := none
    run_at := none
    started_at := none
    completed_at := none
    execution_time := none }

/-- Claim C2: applying a failure via `mark_for_retry` with message `e`
and backoff base `B` increments `attempts` by exactly 1 and records `e`;
if the incremented attempts are still below `max_retries` the job
becomes `failed` with `next_retry_at = now + B ^ attempts` (the exponent
read after the increment), otherwise it becomes `dead` with
`next_retry_at` cleared. -/
theorem mark_for_retry_spec (j : Job) (e : String) (B : Nat) (now : Int) :
    (j.mark_for_retry e B now).attempts = j.attempts + 1 ∧
    (j.mark_for_retry e B now).error_message = some e ∧
    (if j.attempts + 1 < j.max_retries then
       (j.mark_for_retry e B now).state = JState.failed ∧
       (j.mark_for_retry e B now).next_retry_at =
         some (now + ((B ^ (j.attempts + 1) : Nat) : Int))
     else
       (j.mark_for_retry e B now).state = JState.dead ∧
       (j.mark_for_retry e B now).next_retry_at = none) := by
  by_cases h : j.attempts + 1 < j.max_retries <;>
    simp [Job.mark_for_retry, Job.should_retry, Job.calculate_retry_delay, h]

/-- Claim C10: updating a job whose id matches no stored record is a
silent no-op: the `UPDATE ... WHERE id=?` matches zero rows, raises
nothing, and leaves every stored record unchanged. -/
theorem update_job_unknown_id (s : Store) (j : Job)
    (h : ∀ k ∈ s, k.id ≠ j.id) :
    update_job s j = s := by
  induction s with
  | nil => rfl
  | cons a t ih =>
      have ha : a.id ≠ j.id := h a (List.mem_cons_self a t)
      have ht : ∀ k ∈ t, k.id ≠ j.id := fun k hk => h k (List.mem_cons_of_mem a hk)
      have ih2 := ih ht
      unfold update_job at ih2 ⊢
      simp only [List.map_cons, if_neg ha]
      rw [ih2]

/-- Witness for claim C10 at a concrete store and job. -/
theorem update_job_unknown_id_witness :
    update_job [sampleJob] { sampleJob with id := "other" } = [sampleJob] :=
  update_job_unknown_id [sampleJob] { sampleJob with id := "other" } (by decide)

/-- Claim C8: `get_metrics` reports a success rate of
`completed / total * 100` (0 for an empty table) and an average
execution time equal to the mean of the non-null `execution_time`
values (0 when there are none). -/
theorem get_metrics_spec (s : Store) :
    (get_metrics s).success_rate =
      (if s.length = 0 then 0
       else ((s.filter fun j => decide (j.state = JState.completed)).length : ℚ)
              / (s.length : ℚ) * 100) ∧
    (get_metrics s).avg_execution_time =
      (if (s.filterMap Job.execution_time).length = 0 then 0
       else (s.filterMap Job.execution_time).sum
              / ((s.filterMap Job.execution_time).length : ℚ)) := by
  constructor
  · unfold get_metrics
    by_cases h : s.length = 0
    · simp [h]
    · simp only [h, if_false]
      rw [if_pos (by omega)]
  · unfold get_metrics
    by_cases h : (s.filterMap Job.execution_time).length = 0
    · simp [h]
    · simp only [h, if_false, if_neg h]
      by_cases hv : (s.filterMap Job.execution_time).sum
          / ((s.filterMap Job.execution_time).length : ℚ) = 0
      · simp [hv]
      · simp [hv]

/-- Claim C6 (amended): the dictionary round trip restores every one of
the sixteen fields for every job whose `id` is non-empty; the
constructor evaluates `id or str(uuid.uuid4())`, so only the
Python-falsy empty id (which the constructor itself never produces) is
not restored. -/
theorem from_dict_to_dict (j : Job) (fresh : String) (now : Int)
    (h : j.id ≠ "") :
    Job.from_dict (Job.to_dict j) fresh now = j := by
  unfold Job.from_dict Job.to_dict
  simp [h]

/-- Witness for claim C6 at a concrete job. -/
theorem from_dict_to_dict_witness :
    sampleJob.id ≠ "" ∧ Job.from_dict (Job.to_dict sampleJob) "u" 7 = sampleJob :=
  ⟨by decide, from_dict_to_dict sampleJob "u" 7 (by decide)⟩

/-- Claim C6 counterexample: a job record with an empty (Python-falsy)
id is not restored by the round trip — `from_dict` hands the empty id to
the constructor, which replaces it with a fresh uuid. -/
theorem from_dict_to_dict_cex :
    Job.from_dict (Job.to_dict { sampleJob with id := "" }) "generated-uuid" 0
      ≠ { sampleJob with id := "" } := by
  decide

/-- Claim C5 (amended): on a subprocess exit with code 0 the worker
path sets `state = completed`, `output` = the first 500 characters of
the captured stdout, and `completed_at = now`, but the persisted
`execution_time` is the measured wall-clock duration of the subprocess
call (`time.time() - start_time`), which overwrites the
`completed_at - started_at` difference computed inside
`mark_completed`. -/
theorem process_job_success (j : Job) (stdout stderr : String) (measured : ℚ)
    (B : Nat) (now : Int) :
    (Worker.process_job j (execute_command (ExecOutcome.exited 0 stdout stderr))
        measured B now).state = JState.completed ∧
    (Worker.process_job j (execute_command (ExecOutcome.exited 0 stdout stderr))
        measured B now).output = some (stdout.take 500) ∧
    (Worker.process_job j (execute_command (ExecOutcome.exited 0 stdout stderr))
        measured B now).completed_at = some now ∧
    (Worker.process_job j (execute_command (ExecOutcome.exited 0 stdout stderr))
        measured B now).execution_time = some measured := by
  unfold Worker.process_job execute_command Job.mark_completed
  cases hs : j.started_at <;> simp [hs]

/-- Claim C5 counterexample: with `started_at = 0`, completion at
`now = 10` and a measured subprocess duration of 3 seconds, the
persisted `execution_time` is 3 while the difference of the recorded
timestamps `completed_at - started_at` is 10. -/
theorem process_job_execution_time_cex :
    (Worker.process_job { sampleJob with started_at := some 0 }
        (execute_command (ExecOutcome.exited 0 "hi" "")) 3 2 10).started_at = some 0 ∧
    (Worker.process_job { sampleJob with started_at := some 0 }
        (execute_command (ExecOutcome.exited 0 "hi" "")) 3 2 10).completed_at = some 10 ∧
    (Worker.process_job { sampleJob with started_at := some 0 }
        (execute_command (ExecOutcome.exited 0 "hi" "")) 3 2 10).execution_time = some 3 ∧
    (3 : ℚ) ≠ (10 : ℚ) - (0 : ℚ) := by
  refine ⟨by decide, by decide, by decide, by norm_num⟩

/-- Claim C7 (amended): the enqueue boundary rejects, leaving the store
untouched, a request with invalid JSON, a request with no JSON and no
(or an empty) `--command` option, and a parsed JSON request lacking the
`command` key; a parsed JSON request whose `command` is present but
empty is not rejected. -/
theorem cli_enqueue_rejects (s : Store) (inp : EnqueueInput) (cfg : Nat)
    (fresh : String) (now : Int)
    (h : inp = EnqueueInput.nothingGiven ∨ inp = EnqueueInput.jsonArg none ∨
         (∃ d, inp = EnqueueInput.jsonArg (some d) ∧ d.command = none) ∨
         (∃ jid mr p t r, inp = EnqueueInput.cmdOpt "" jid mr p t r)) :
    cli_enqueue s inp cfg fresh now = (false, s) := by
  rcases h with rfl | rfl | ⟨d, rfl, hd⟩ | ⟨jid, mr, p, t, r, rfl⟩
  · rfl
  · rfl
  · simp [cli_enqueue, enqueue_dict, hd]
  · simp [cli_enqueue]

/-- Witness for claim C7: an invalid JSON request against an empty
store is rejected with no state change. -/
theorem cli_enqueue_rejects_witness :
    cli_enqueue [] (EnqueueInput.jsonArg none) 3 "u" 0 = (false, []) :=
  cli_enqueue_rejects [] (EnqueueInput.jsonArg none) 3 "u" 0 (Or.inr (Or.inl rfl))

/-- Claim C7 counterexample: a parsed JSON request whose `command` is
the empty string passes the `'command' not in data` check and is
accepted — a record with an empty command is inserted into the store. -/
theorem cli_enqueue_empty_command_cex :
    (cli_enqueue [] (EnqueueInput.jsonArg (some emptyCmdDict)) 3 "u" 0).1 = true ∧
    (cli_enqueue [] (EnqueueInput.jsonArg (some emptyCmdDict)) 3 "u" 0).2.map
        Job.command = [some ""] := by
  refine ⟨by decide, by decide⟩

/-- Claim C4: `retry_dlq_job` on a stored dead job succeeds and resets
exactly `state`, `attempts`, `next_retry_at` and `error_message`
(stamping `updated_at`), leaving `id`, `command`, `created_at`,
`started_at`, `completed_at` and every other field of the record
unchanged; on a missing id or a non-dead job it fails and leaves the
store completely unchanged.  The hypothesis states that ids identify
records, which the primary key on `jobs.id` guarantees. -/
theorem retry_dlq_job_spec (s : Store) (jid : String) (now : Int)
    (hu : ∀ a ∈ s, ∀ b ∈ s, a.id = b.id → a = b) :
    (∀ j, get_job s jid = some j → j.state = JState.dead →
       retry_dlq_job s jid now =
         (true, s.map fun k =>
           if k.id = jid then
             { k with state := JState.pending, attempts := 0,
                      next_retry_at := none, error_message := none,
                      updated_at := now }
           else k)) ∧
    (∀ j, get_job s jid = some j → j.state ≠ JState.dead →
       retry_dlq_job s jid now = (false, s)) ∧
    (get_job s jid = none → retry_dlq_job s jid now = (false, s)) := by
  refine ⟨?_, ?_, ?_⟩
  · intro j hget hdead
    have hjid : j.id = jid := by simpa using List.find?_some hget
    have hjmem : j ∈ s := List.mem_of_find?_eq_some hget
    unfold retry_dlq_job
    rw [hget]
    dsimp only
    rw [if_pos hdead]
    refine congrArg (Prod.mk true) ?_
    unfold update_job
    apply List.map_congr_left
    intro k hk
    dsimp only
    by_cases hkid : k.id = jid
    · have hkj : k = j := hu k hk j hjmem (hkid.trans hjid.symm)
      rw [if_pos (hkid.trans hjid.symm), if_pos hkid, hkj]
    · rw [if_neg (fun hc => hkid (hc.trans hjid)), if_neg hkid]
  · intro j hget hnd
    unfold retry_dlq_job
    rw [hget]
    dsimp only
    rw [if_neg hnd]
  · intro hget
    unfold retry_dlq_job
    rw [hget]

/-- Witness for claim C4: both branches at concrete inputs — resetting
a stored dead job, and failing without mutation on a pending job. -/
theorem retry_dlq_job_spec_witness :
    retry_dlq_job [deadJob] "dead-1" 42 =
      (true, [{ deadJob with
                  state := JState.pending
                  attempts := 0
                  next_retry_at := none
                  error_message := none
                  updated_at := 42 }]) ∧
    retry_dlq_job [sampleJob] "job-1" 42 = (false, [sampleJob]) := by
  constructor
  · have h := (retry_dlq_job_spec [deadJob] "dead-1" 42
        (by intro a ha b hb hab
            simp only [List.mem_singleton] at ha hb
            rw [ha, hb])).1 deadJob (by decide) (by decide)
    rw [h]
    refine Prod.ext rfl ?_
    decide
  · exact (retry_dlq_job_spec [sampleJob] "job-1" 42
        (by intro a ha b hb hab
            simp only [List.mem_singleton] at ha hb
            rw [ha, hb])).2.1 sampleJob (by decide) (by decide)

/-- A list sorted by `created_at` descending whose elements all share
one priority is sorted under the two-key `list_jobs` order. -/
theorem sorted_listLe_of_createdDesc {l : List Job} {p : Int}
    (hp : ∀ j ∈ l, j.priority = p) (hs : l.Sorted createdDesc) :
    l.Sorted listLe := by
  induction l with
  | nil => exact List.sorted_nil
  | cons a t ih =>
      rw [List.sorted_cons] at hs ⊢
      refine ⟨?_, ih (fun j hj => hp j (List.mem_cons_of_mem a hj)) hs.2⟩
      intro b hb
      have h1 := hs.1 b hb
      have hap := hp a (List.mem_cons_self a t)
      have hbp := hp b (List.mem_cons_of_mem a hb)
      unfold createdDesc at h1
      unfold listLe
      exact Or.inr ⟨hap.trans hbp.symm, h1⟩

/-- Claim C9: for every store state and every combination of the
optional state and priority filters, `list_jobs` returns exactly the
jobs matching the filters (as a permutation of the filtered table), in
an order sorted by priority descending and, within equal priority, by
created_at descending. -/
theorem list_jobs_spec (s : Store) (st : Option JState) (p : Option Int) :
    (list_jobs s st p).Perm (s.filter fun j => matchesFilter st p j) ∧
    (list_jobs s st p).Sorted listLe := by
  cases st with
  | none =>
      cases p with
      | none =>
          constructor
          · have h := List.perm_insertionSort listLe s
            unfold list_jobs
            simpa [matchesFilter] using h
          · exact List.sorted_insertionSort listLe s
      | some pv =>
          have hperm := List.perm_insertionSort createdDesc
            (s.filter fun j => decide (j.priority = pv))
          constructor
          · unfold list_jobs
            simpa [matchesFilter] using hperm
          · apply sorted_listLe_of_createdDesc
            · intro j hj
              unfold list_jobs at hj
              have hj2 := hperm.mem_iff.mp hj
              have := List.of_mem_filter hj2
              simpa using this
            · exact List.sorted_insertionSort createdDesc _
  | some stv =>
      cases p with
      | none =>
          constructor
          · have h := List.perm_insertionSort listLe
              (s.filter fun j => decide (j.state = stv))
            unfold list_jobs
            simpa [matchesFilter] using h
          · exact List.sorted_insertionSort listLe _
      | some pv =>
          constructor
          · have h := List.perm_insertionSort listLe
              (s.filter fun j => decide (j.state = stv) && decide (j.priority = pv))
            unfold list_jobs
            simpa [matchesFilter] using h
          · exact List.sorted_insertionSort listLe _

/-- The two-key claim precedence is irreflexive. -/
theorem claimBefore_irrefl (a : Job) : claimBefore a a = false := by
  simp [claimBefore]

/-- The two-key claim precedence is transitive. -/
theorem claimBefore_trans {a b c : Job} (h1 : claimBefore a b = true)
    (h2 : claimBefore b c = true) : claimBefore a c = true := by
  simp only [claimBefore, Bool.or_eq_true, Bool.and_eq_true, decide_eq_true_eq] at h1 h2 ⊢
  omega

/-- The two-key claim precedence is asymmetric. -/
theorem claimBefore_asymm {a b : Job} (h : claimBefore a b = true) :
    claimBefore b a = false := by
  rw [Bool.eq_false_iff]
  intro h2
  simp only [claimBefore, Bool.or_eq_true, Bool.and_eq_true, decide_eq_true_eq] at h h2
  omega

/-- Characterisation of the `LIMIT 1` scan: when the fold over the
eligible rows yields a row, that row weakly precedes the seed, belongs
to the seed or the list, and no scanned row strictly precedes it. -/
theorem foldl_pickBest_some :
    ∀ (l : List Job) (b m : Job), l.foldl pickBest (some b) = some m →
      (claimBefore m b = true ∨ m = b) ∧ (m = b ∨ m ∈ l) ∧
        ∀ k ∈ l, claimBefore k m = false
  | [], b, m, h => by
      simp only [List.foldl_nil, Option.some.injEq] at h
      exact ⟨Or.inr h.symm, Or.inl h.symm, by simp⟩
  | a :: t, b, m, h => by
      rw [List.foldl_cons] at h
      by_cases hab : claimBefore a b = true
      · rw [show pickBest (some b) a = some a by simp [pickBest, hab]] at h
        obtain ⟨h1, h2, h3⟩ := foldl_pickBest_some t a m h
        have hmb : claimBefore m b = true := by
          rcases h1 with h1 | rfl
          · exact claimBefore_trans h1 hab
          · exact hab
        refine ⟨Or.inl hmb, ?_, ?_⟩
        · rcases h2 with rfl | h2
          · exact Or.inr (List.mem_cons_self _ _)
          · exact Or.inr (List.mem_cons_of_mem _ h2)
        · intro k hk
          rcases List.mem_cons.mp hk with rfl | hk2
          · rcases h1 with h1 | rfl
            · exact claimBefore_asymm h1
            · exact claimBefore_irrefl m
          · exact h3 k hk2
      · have hab2 : claimBefore a b = false := by
          rw [Bool.eq_false_iff]; exact hab
        rw [show pickBest (some b) a = some b by simp [pickBest, hab2]] at h
        obtain ⟨h1, h2, h3⟩ := foldl_pickBest_some t b m h
        refine ⟨h1, ?_, ?_⟩
        · rcases h2 with rfl | h2
          · exact Or.inl rfl
          · exact Or.inr (List.mem_cons_of_mem a h2)
        · intro k hk
          rcases List.mem_cons.mp hk with rfl | hk2
          · rw [Bool.eq_false_iff]
            intro hkm
            rcases h1 with h1 | rfl
            · exact hab (claimBefore_trans hkm h1)
            · exact hab hkm
          · exact h3 k hk2

/-- Claim C1 (amended): a job returned by `get_next_job` is the
`mark_processing` image of a stored job that satisfies the eligibility
predicate (state pending or failed, `next_retry_at` and `run_at` null
or elapsed) and that no other eligible job strictly precedes under
`priority DESC, created_at ASC`; jobs tying on both keys are broken by
scan (insertion) order, not by id. -/
theorem get_next_job_claim (s : Store) (now : Int) (j2 : Job)
    (h : (get_next_job s now).1 = some j2) :
    ∃ j ∈ s, eligible now j = true ∧ j2 = j.mark_processing now ∧
      ∀ k ∈ s, eligible now k = true → claimBefore k j = false := by
  unfold get_next_job at h
  cases hf : (s.filter (eligible now)).foldl pickBest none with
  | none => rw [hf] at h; simp at h
  | some m =>
      rw [hf] at h
      dsimp only at h
      have hj2 : j2 = m.mark_processing now := (Option.some.inj h).symm
      subst hj2
      cases hl : s.filter (eligible now) with
      | nil => rw [hl] at hf; simp at hf
      | cons j0 rest =>
          rw [hl, List.foldl_cons] at hf
          have hf2 : rest.foldl pickBest (some j0) = some m := hf
          obtain ⟨h1, h2, h3⟩ := foldl_pickBest_some rest j0 m hf2
          have hmfilter : m ∈ s.filter (eligible now) := by
            rw [hl]
            rcases h2 with rfl | h2
            · exact List.mem_cons_self _ _
            · exact List.mem_cons_of_mem _ h2
          have hms : m ∈ s := List.mem_of_mem_filter hmfilter
          have hme : eligible now m = true := List.of_mem_filter hmfilter
          refine ⟨m, hms, hme, rfl, ?_⟩
          intro k hk hke
          have hkf : k ∈ s.filter (eligible now) := List.mem_filter.mpr ⟨hk, hke⟩
          rw [hl] at hkf
          rcases List.mem_cons.mp hkf with rfl | hk2
          · rcases h1 with h1 | rfl
            · exact claimBefore_asymm h1
            · exact claimBefore_irrefl m
          · exact h3 k hk2

/-- Witness for claim C1: a single pending job is claimed and satisfies
eligibility and two-key maximality. -/
theorem get_next_job_claim_witness :
    ∃ j ∈ ([sampleJob] : Store), eligible 0 j = true ∧
      sampleJob.mark_processing 0 = j.mark_processing 0 ∧
      ∀ k ∈ ([sampleJob] : Store), eligible 0 k = true → claimBefore k j = false :=
  get_next_job_claim [sampleJob] 0 (sampleJob.mark_processing 0) (by decide)

/-- Claim C1 counterexample: two eligible jobs tying on priority and on
created_at, inserted with ids "b" then "a".  The scan returns the
first-inserted row (id "b") although the eligible job with id "a"
strictly precedes it under the specified three-key order (priority
descending, created_at ascending, id ascending), so the returned job is
not maximal under the claimed ordering. -/
theorem get_next_job_id_tiebreak_cex :
    (get_next_job [tieJobB, tieJobA] 0).1 = some (tieJobB.mark_processing 0) ∧
    (get_next_job [tieJobB, tieJobA] 0).1.map Job.id = some "b" ∧
    tieJobA ∈ ([tieJobB, tieJobA] : Store) ∧
    eligible 0 tieJobA = true ∧
    specBefore tieJobA tieJobB ∧
    specBefore tieJobA (tieJobB.mark_processing 0) := by
  refine ⟨by decide, by decide, by decide, by decide, ?_, ?_⟩
  · exact Or.inr ⟨rfl, Or.inr ⟨rfl, by rw [String.lt_iff_toList_lt]; decide⟩⟩
  · exact Or.inr ⟨rfl, Or.inr ⟨rfl, by rw [String.lt_iff_toList_lt]; decide⟩⟩

/-- Every single-job transition preserves the strengthened retry
invariant. -/
theorem strongInv_step {a b : Job} (hs : JStep a b) (ha : StrongInv a) : StrongInv b := by
  obtain ⟨h1, h2, h3⟩ := ha
  cases hs with
  | claim now h =>
      have hlt : a.attempts < a.max_retries := h1 (by tauto)
      unfold StrongInv Job.mark_processing
      refine ⟨fun _ => hlt, fun hd => ?_, h3⟩
      simp at hd
  | execute oc measured B now h =>
      have hlt : a.attempts < a.max_retries := h1 (Or.inr (Or.inl h))
      by_cases hres : (execute_command oc).success = true
      · cases hso : a.started_at with
        | none =>
            unfold StrongInv
            refine ⟨fun hx => ?_, fun hd => ?_, ?_⟩
            · simp [Worker.process_job, hres, Job.mark_completed, hso] at hx
            · simp [Worker.process_job, hres, Job.mark_completed, hso] at hd
            · simp [Worker.process_job, hres, Job.mark_completed, hso]
              omega
        | some st =>
            unfold StrongInv
            refine ⟨fun hx => ?_, fun hd => ?_, ?_⟩
            · simp [Worker.process_job, hres, Job.mark_completed, hso] at hx
            · simp [Worker.process_job, hres, Job.mark_completed, hso] at hd
            · simp [Worker.process_job, hres, Job.mark_completed, hso]
              omega
      · have hres2 : (execute_command oc).success = false := by
          rw [Bool.eq_false_iff]; exact hres
        by_cases hr : a.attempts + 1 < a.max_retries
        · unfold StrongInv
          refine ⟨fun _ => ?_, fun hd => ?_, ?_⟩
          · simp [Worker.process_job, hres2, Job.mark_for_retry, Job.should_retry, hr]
          · simp [Worker.process_job, hres2, Job.mark_for_retry, Job.should_retry, hr] at hd
          · simp [Worker.process_job, hres2, Job.mark_for_retry, Job.should_retry, hr]
            omega
        · unfold StrongInv
          refine ⟨fun hx => ?_, fun hd => ⟨?_, ?_⟩, ?_⟩
          · simp [Worker.process_job, hres2, Job.mark_for_retry, Job.should_retry, hr] at hx
          · simp [Worker.process_job, hres2, Job.mark_for_retry, Job.should_retry, hr]
            omega
          · simp [Worker.process_job, hres2, Job.mark_for_retry, Job.should_retry, hr]
          · simp [Worker.process_job, hres2, Job.mark_for_retry, Job.should_retry, hr]
            omega

/-- Claim C3 (amended): for every job enqueued fresh (pending, zero
attempts) with `max_retries ≥ 1`, along any sequence of claim, success
and failure transitions, `attempts ≤ max_retries` always holds, and a
dead job has `attempts = max_retries` and a null `next_retry_at`.  (For
`max_retries = 0` the first failure overshoots the budget — see the
counterexample.) -/
theorem retry_invariant (j0 j : Job) (h0 : j0.state = JState.pending)
    (ha0 : j0.attempts = 0) (hm : 1 ≤ j0.max_retries)
    (hr : Relation.ReflTransGen JStep j0 j) :
    j.attempts ≤ j.max_retries ∧
      (j.state = JState.dead → j.attempts = j.max_retries ∧ j.next_retry_at = none) := by
  have hinv : StrongInv j := by
    induction hr with
    | refl =>
        refine ⟨fun _ => by omega, fun hd => ?_, by omega⟩
        rw [h0] at hd
        exact absurd hd (by decide)
    | tail hab hbc ih => exact strongInv_step hbc ih
  exact ⟨hinv.2.2, hinv.2.1⟩

/-- Witness for claim C3: a job with `max_retries = 1` that is claimed
and then fails its only attempt ends dead with the budget exactly
exhausted. -/
theorem retry_invariant_witness :
    oneRetryFinal.attempts ≤ oneRetryFinal.max_retries ∧
      (oneRetryFinal.state = JState.dead →
        oneRetryFinal.attempts = oneRetryFinal.max_retries ∧
          oneRetryFinal.next_retry_at = none) :=
  retry_invariant oneRetryJob oneRetryFinal rfl rfl (by decide)
    (Relation.ReflTransGen.tail
      (Relation.ReflTransGen.tail Relation.ReflTransGen.refl
        (JStep.claim oneRetryJob 0 (Or.inl rfl)))
      (JStep.execute (oneRetryJob.mark_processing 0)
        (ExecOutcome.exited 1 "" "boom") 1 2 1 rfl))

/-- Claim C3 counterexample: a job enqueued with `max_retries = 0`
(permitted: any non-negative value) that is claimed and fails once
reaches `attempts = 1 > 0 = max_retries` and dies with
`attempts ≠ max_retries`, refuting the claim as stated for arbitrary
non-negative `max_retries`. -/
theorem retry_invariant_cex :
    ¬ ∀ (j0 j : Job), j0.state = JState.pending → j0.attempts = 0 →
        Relation.ReflTransGen JStep j0 j →
        (j.attempts ≤ j.max_retries ∧
          (j.state = JState.dead → j.attempts = j.max_retries ∧ j.next_retry_at = none)) := by
  intro hall
  have hstep1 : JStep zeroRetryJob (zeroRetryJob.mark_processing 0) :=
    JStep.claim zeroRetryJob 0 (Or.inl rfl)
  have hstep2 : JStep (zeroRetryJob.mark_processing 0)
      (Worker.process_job (zeroRetryJob.mark_processing 0)
        (execute_command (ExecOutcome.exited 1 "" "boom")) 1 2 1) :=
    JStep.execute (zeroRetryJob.mark_processing 0) (ExecOutcome.exited 1 "" "boom") 1 2 1 rfl
  have hreach := Relation.ReflTransGen.tail
    (Relation.ReflTransGen.tail Relation.ReflTransGen.refl hstep1) hstep2
  have hfin := hall zeroRetryJob _ rfl rfl hreach
  revert hfin
  decide

end QueueCTL
